import Mathlib

/-!
Shallow embedding of the core of the `aichat` repository
(`src/client/model_info.rs`, `src/client/common.rs`, `src/render/repl.rs`)
and proofs of the specification claims about it.

External crate functions (`textwrap::core::display_width`, the markdown
renderer, `std::env::var`, the tokenizer validity of `reqwest::Proxy::all`)
are taken as explicit function parameters; repository helpers that live
outside the provided sources are modelled from the spec and marked as such.
Machine integers (`u16`) are modelled as `Nat` with explicit `% 65536`
where the source could wrap.
-/

set_option autoImplicit false

namespace Aichat

/-! ## Data model (`src/client/model_info.rs`) -/

/-- Message role: user / assistant / system. -/
inductive Role where
  | user
  | assistant
  | system
deriving DecidableEq, Repr

/-- `Role::is_user`. -/
def Role.is_user : Role → Bool
  | .user => true
  | _ => false

/-- A conversation message: a role and textual content. -/
structure Message where
  role : Role
  content : String
deriving DecidableEq, Repr

instance : Inhabited Message := ⟨⟨.system, ""⟩⟩

/-- `ModelInfo`: provider/model identity plus token-accounting data.
`tokens_count_factors = (per_messages, bias)`. -/
structure ModelInfo where
  client : String
  name : String
  index : Nat
  max_tokens : Option Nat
  tokens_count_factors : Nat × Nat
deriving DecidableEq, Repr

/-- `ModelInfo::new`. -/
def ModelInfo.new (index : Nat) (client name : String) : ModelInfo :=
  { index, client, name, max_tokens := none, tokens_count_factors := (0, 0) }

/-- `ModelInfo::set_max_tokens`: `None` and `Some(0)` are both normalized
to no ceiling; any other value is stored unchanged. -/
def ModelInfo.set_max_tokens (m : ModelInfo) (max_tokens : Option Nat) : ModelInfo :=
  match max_tokens with
  | none | some 0 => { m with max_tokens := none }
  | _ => { m with max_tokens := max_tokens }

/-- `ModelInfo::set_tokens_count_factors`. -/
def ModelInfo.set_tokens_count_factors (m : ModelInfo) (f : Nat × Nat) : ModelInfo :=
  { m with tokens_count_factors := f }

/-- `ModelInfo::messages_tokens`: sums the content-level token estimator
(`crate::utils::count_tokens`, passed as the parameter `count_tokens`)
over all messages. -/
def ModelInfo.messages_tokens (count_tokens : String → Nat) (_m : ModelInfo)
    (messages : List Message) : Nat :=
  (messages.map (fun v => count_tokens v.content)).sum

/-- `ModelInfo::total_tokens`. -/
def ModelInfo.total_tokens (count_tokens : String → Nat) (m : ModelInfo)
    (messages : List Message) : Nat :=
  if messages.isEmpty then 0
  else
    let num_messages := messages.length
    let message_tokens := m.messages_tokens count_tokens messages
    let per_messages := m.tokens_count_factors.1
    if (messages.getD (num_messages - 1) default).role.is_user then
      num_messages * per_messages + message_tokens
    else
      (num_messages - 1) * per_messages + message_tokens

/-- `ModelInfo::max_tokens_limit`: adds the bias factor to the total and
fails when a ceiling is configured and the sum reaches it. -/
def ModelInfo.max_tokens_limit (count_tokens : String → Nat) (m : ModelInfo)
    (messages : List Message) : Except String Unit :=
  let bias := m.tokens_count_factors.2
  let total_tokens := m.total_tokens count_tokens messages + bias
  match m.max_tokens with
  | some max_tokens =>
      if total_tokens ≥ max_tokens then .error "Exceed max tokens limit" else .ok ()
  | none => .ok ()

/-! ## Secret and proxy resolution (`src/client/common.rs`) -/

/-- ASCII uppercasing, as in `str::to_ascii_uppercase`. -/
def to_ascii_uppercase (s : String) : String :=
  String.mk (s.toList.map (fun c =>
    if 'a' ≤ c ∧ c ≤ 'z' then Char.ofNat (c.toNat - 32) else c))

/-- The getter generated by the `config_get_fn!` macro: the explicit
per-client configuration value if present, else the environment variable
named by uppercasing `client_name ++ "_" ++ field_name`, else an error
naming the missing field. The process environment is the parameter `env`. -/
def config_get (field_value : Option String) (client_name field_name : String)
    (env : String → Option String) : Except String String :=
  let env_name := to_ascii_uppercase (client_name ++ "_" ++ field_name)
  match field_value.orElse (fun _ => env env_name) with
  | some v => .ok v
  | none => .error ("Miss " ++ field_name)

/-- `set_proxy`: resolves which proxy to install on the client builder.
The result carries the applied proxy (`some p`) or `none` for no proxy;
`valid` stands for `reqwest::Proxy::all` succeeding on the value. -/
def set_proxy (explicit : Option String) (env : String → Option String)
    (valid : String → Bool) : Except String (Option String) :=
  let chosen : Option String :=
    match explicit with
    | some proxy =>
        if proxy = "" ∨ proxy = "false" ∨ proxy = "-" then none else some proxy
    | none => (env "HTTPS_PROXY").orElse (fun _ => env "ALL_PROXY")
  match chosen with
  | none => .ok none
  | some proxy =>
      if valid proxy then .ok (some proxy)
      else .error ("Invalid proxy `" ++ proxy ++ "`")

/-! ## Streaming session controller (`Client::send_message_streaming`) -/

/-- The observable states of the shared `AbortSignal`. -/
inductive AbortState where
  | running
  | ctrlc
  | ctrld
deriving DecidableEq, Repr

/-- Which branch of the `tokio::select!` race completes first; the retrieval
branch carries the result of the inner exchange. -/
inductive RaceWinner where
  | retrieval (ret : Except String Unit)
  | abortWatch
  | ctrlC
deriving Repr

/-- Observable outcome of `send_message_streaming`: how many times the
renderer's completion hook `handler.done()` ran, the abort signal
afterwards, and the returned result. -/
structure StreamOutcome where
  done_calls : Nat
  signal : AbortState
  result : Except String Unit
deriving Repr

/-- `anyhow::Context::with_context`: wraps an error with added context. -/
def with_context (ctx : String) : Except String Unit → Except String Unit
  | .ok () => .ok ()
  | .error e => .error (ctx ++ ": " ++ e)

/-- The `tokio::select!` race in `Client::send_message_streaming`, as a
function of the branch that completes first: the retrieval arm calls
`handler.done()` and wraps any error with "Failed to get answer"; the
abort-watch arm calls `handler.done()` and succeeds; the ctrl-c arm sets
the shared signal to `ctrlc` and succeeds without calling the hook. -/
def send_message_streaming_race (signal : AbortState) : RaceWinner → StreamOutcome
  | .retrieval ret =>
      { done_calls := 1, signal := signal,
        result := with_context "Failed to get answer" ret }
  | .abortWatch => { done_calls := 1, signal := signal, result := .ok () }
  | .ctrlC => { done_calls := 0, signal := .ctrlc, result := .ok () }

/-- Stream-side actions observable from the dry-run branch of
`send_message_streaming`. -/
inductive StreamAction where
  | sleep (ms : Nat)
  | text (s : String)
  | done
deriving DecidableEq, Repr

/-- Modelled from the spec: `crate::utils::tokenize` is not among the
provided sources; the spec constrains it only up to concatenation (the
emitted fragments concatenate back to the echoed content), so it is
modelled as character-level splitting. -/
def tokenize (s : String) : List String :=
  s.toList.map (fun c => String.mk [c])

/-- The dry-run branch of `send_message_streaming`: tokenize the echoed
content (`Config::echo_messages` is the parameter `echo`), sleep 25ms
before emitting each token as a `Text` event, then — the retrieval arm
having completed — call `handler.done()` and return success. -/
def dry_run_streaming (echo : String → String) (content : String) :
    List StreamAction × Except String Unit :=
  let tokens := tokenize (echo content)
  ((tokens.map (fun t => [StreamAction.sleep 25, StreamAction.text t])).flatten
      ++ [StreamAction.done], .ok ())

/-- The text fragments of an action sequence, in order. -/
def textsOf : List StreamAction → List String
  | [] => []
  | .text s :: rest => s :: textsOf rest
  | _ :: rest => textsOf rest

/-- How many `done` events an action sequence holds. -/
def doneCount : List StreamAction → Nat
  | [] => 0
  | .done :: rest => doneCount rest + 1
  | _ :: rest => doneCount rest

/-- Checks that every `text` event is immediately preceded by a 25ms sleep. -/
def sleepBeforeEachText : List StreamAction → Bool
  | [] => true
  | .text _ :: _ => false
  | .sleep 25 :: .text _ :: rest => sleepBeforeEachText rest
  | .sleep _ :: rest => sleepBeforeEachText rest
  | .done :: rest => sleepBeforeEachText rest

/-- Concatenation of a list of strings. -/
def concatAll : List String → String
  | [] => ""
  | s :: rest => s ++ concatAll rest

/-! ## Terminal renderer (`src/render/repl.rs`) -/

/-- `need_rows`: how many terminal rows a string occupies, from its display
width and the column width. `u16` arithmetic: `% 65536` models the `as u16`
cast and wrap-around; `display_width` stands for
`textwrap::core::display_width`. -/
def need_rows (display_width : String → Nat) (text : String) (columns : Nat) : Nat :=
  let buffer_width := display_width text % 65536
  (buffer_width + columns - 1) % 65536 / columns

/-- Helper for `split_line_tail`: walks a reversed character list and splits
at the first newline, returning the characters after the last newline of the
original (still reversed) and, when a newline exists, the part before it. -/
def split_at_nl_rev : List Char → List Char × Option (List Char)
  | [] => ([], none)
  | c :: rest =>
      if c = '\n' then ([], some rest)
      else
        ((split_at_nl_rev rest).1.cons c, (split_at_nl_rev rest).2)

/-- Modelled from the spec: `crate::utils::split_line_tail` is not among the
provided sources; per the spec it splits text into a head of all complete
lines and a tail, the partial last line: the split is at the last newline
(which belongs to neither part), and a text without a newline is all tail. -/
def split_line_tail (text : String) : String × String :=
  match split_at_nl_rev text.toList.reverse with
  | (_, none) => ("", text)
  | (tl, some before) => (String.mk before.reverse, String.mk tl.reverse)

/-- The terminal writes the renderer issues (crossterm commands). -/
inductive WriteAction where
  | moveTo (col row : Nat)
  | scrollUp (n : Nat)
  | clearUntilNewline
  | print (s : String)
  | moveLeft (n : Nat)
deriving DecidableEq, Repr

/-- `print_block`: prints every line of `text` followed by a newline and a
cursor move left by the column width, returning the number of lines. -/
def print_block (text : String) (columns : Nat) : List WriteAction × Nat :=
  let lines := text.splitOn "\n"
  ((lines.map (fun line =>
      [WriteAction.print line, WriteAction.print "\n",
        WriteAction.moveLeft columns])).flatten,
    lines.length)

/-- Renderer-internal state: the pending buffer and its tracked row count. -/
structure RenderState where
  buffer : String
  buffer_rows : Nat
deriving DecidableEq, Repr

/-- The kitty off-by-one correction (`repl.rs` lines 58–61): at column 0,
with row > 0 and the pending buffer's display width exactly the column
width, the tracked row is decremented by one. -/
def correct_row (display_width : String → Nat) (columns col row : Nat)
    (buffer : String) : Nat :=
  if col = 0 ∧ 0 < row ∧ display_width buffer = columns then row - 1 else row

/-- Cursor repositioning before writing (`repl.rs` lines 63–73): when the
first row of the pending buffer is within the drawn region, move straight to
column 0 of it; otherwise scroll the viewport up by the deficit and move to
the origin; then clear to end of line. `row + 1` is a `u16` addition, hence
the `% 65536`. -/
def reposition_actions (row buffer_rows : Nat) : List WriteAction :=
  if (row + 1) % 65536 ≥ buffer_rows then
    [.moveTo 0 ((row + 1) % 65536 - buffer_rows), .clearUntilNewline]
  else
    [.scrollUp (buffer_rows - (row + 1) % 65536), .moveTo 0 0,
      .clearUntilNewline]

/-- One `Text(text)` event of `repl_render_stream_inner` (`repl.rs` lines
55–98): `render` and `render_line` stand for the opaque markdown renderer's
block and line modes, `display_width` for `textwrap::core::display_width`,
`(col, row)` for the reported cursor position. Returns the new render state
and the terminal writes in order. -/
def handle_text (render render_line : String → String)
    (display_width : String → Nat) (columns col row : Nat)
    (st : RenderState) (text : String) : RenderState × List WriteAction :=
  let row := correct_row display_width columns col row st.buffer
  let pre := reposition_actions row st.buffer_rows
  if text.toList.contains '\n' then
    let text := st.buffer ++ text
    let split := split_line_tail text
    let output := render split.1
    (⟨split.2, need_rows display_width split.2 columns⟩,
      pre ++ (print_block output columns).1 ++ [.print split.2])
  else
    let buffer := st.buffer ++ text
    let output := render_line buffer
    if output.toList.contains '\n' then
      let split := split_line_tail output
      (⟨buffer,
          (print_block split.1 columns).2 +
            need_rows display_width split.2 columns⟩,
        pre ++ (print_block split.1 columns).1 ++ [.print split.2])
    else
      (⟨buffer, need_rows display_width output columns⟩,
        pre ++ [.print output])

end Aichat

namespace Aichat

/-! ## Claims about the token accountant -/

/-- C1: `total_tokens` returns 0 on the empty sequence, and otherwise equals
`num_messages_term * per_message_overhead + Σ count_tokens(content)`, where
`num_messages_term` is the length when the last message's role is `user`
and the length minus one otherwise. -/
theorem total_tokens_formula (count_tokens : String → Nat) (m : ModelInfo)
    (messages : List Message) :
    (messages = [] → m.total_tokens count_tokens messages = 0) ∧
    (∀ h : messages ≠ [],
      m.total_tokens count_tokens messages =
        (if (messages.getLast h).role.is_user then messages.length
          else messages.length - 1) * m.tokens_count_factors.1
        + (messages.map (fun v => count_tokens v.content)).sum) := by
  constructor
  · rintro rfl; rfl
  · intro h
    have hlen : 0 < messages.length := List.length_pos.mpr h
    simp only [ModelInfo.total_tokens, ModelInfo.messages_tokens]
    rw [if_neg (by simpa [List.isEmpty_iff] using h)]
    rw [List.getD_eq_getElem _ _ (by omega), ← List.getLast_eq_getElem _ h]
    split <;> ring

/-- Witness for C1 at a concrete two-message conversation ending in a
user message. -/
theorem total_tokens_formula_witness :
    ([⟨Role.assistant, "a"⟩, ⟨Role.user, "bc"⟩] : List Message) ≠ [] ∧
    (ModelInfo.total_tokens String.length
      ((ModelInfo.new 0 "openai" "gpt-4").set_tokens_count_factors (5, 2))
      [⟨Role.assistant, "a"⟩, ⟨Role.user, "bc"⟩]) = 13 := by
  refine ⟨by decide, ?_⟩
  have h := (total_tokens_formula String.length
      ((ModelInfo.new 0 "openai" "gpt-4").set_tokens_count_factors (5, 2))
      [⟨Role.assistant, "a"⟩, ⟨Role.user, "bc"⟩]).2 (by decide)
  rw [h]; rfl

/-- C2: `max_tokens_limit` fails with the limit-exceeded error exactly when a
ceiling is configured and `total_tokens + bias ≥ ceiling` (equality also
fails); it succeeds exactly when the sum is strictly below every configured
ceiling, in particular always when no ceiling is configured. -/
theorem max_tokens_limit_boundary (count_tokens : String → Nat) (m : ModelInfo)
    (messages : List Message) :
    (m.max_tokens_limit count_tokens messages = .error "Exceed max tokens limit" ↔
      ∃ mt, m.max_tokens = some mt ∧
        mt ≤ m.total_tokens count_tokens messages + m.tokens_count_factors.2) ∧
    (m.max_tokens_limit count_tokens messages = .ok () ↔
      ∀ mt, m.max_tokens = some mt →
        m.total_tokens count_tokens messages + m.tokens_count_factors.2 < mt) := by
  rcases hmt : m.max_tokens with _ | mt
  · simp [ModelInfo.max_tokens_limit, hmt]
  · simp only [ModelInfo.max_tokens_limit, hmt]
    by_cases hle : mt ≤ m.total_tokens count_tokens messages + m.tokens_count_factors.2
    · rw [if_pos (by omega)]
      constructor
      · exact ⟨fun _ => ⟨mt, rfl, hle⟩, fun _ => rfl⟩
      · constructor
        · intro h; exact Except.noConfusion h
        · intro h; exact absurd (h mt rfl) (by omega)
    · rw [if_neg (by omega)]
      constructor
      · constructor
        · intro h; exact Except.noConfusion h
        · rintro ⟨mt', hmt', hle'⟩
          have := Option.some.inj hmt'
          omega
      · exact ⟨fun _ mt' hmt' => by have := Option.some.inj hmt'; omega, fun _ => rfl⟩

/-- C10: `set_max_tokens` normalizes both `None` and `Some 0` to no ceiling
and stores any other `Some n` unchanged; consequently after configuring a
ceiling of 0 the limit check never fails. -/
theorem set_max_tokens_normalizes (m : ModelInfo) (mt : Option Nat) :
    ((mt = none ∨ mt = some 0) → (m.set_max_tokens mt).max_tokens = none) ∧
    (∀ n, n ≠ 0 → mt = some n → (m.set_max_tokens mt).max_tokens = some n) ∧
    (∀ count_tokens messages, (mt = none ∨ mt = some 0) →
      (m.set_max_tokens mt).max_tokens_limit count_tokens messages = .ok ()) := by
  refine ⟨?_, ?_, ?_⟩
  · rintro (rfl | rfl) <;> rfl
  · rintro n hn rfl
    cases n with
    | zero => exact absurd rfl hn
    | succ k => rfl
  · intro count_tokens messages h
    have hnone : (m.set_max_tokens mt).max_tokens = none := by
      rcases h with rfl | rfl <;> rfl
    unfold ModelInfo.max_tokens_limit
    rw [hnone]

/-- Witness for C10: a ceiling of 0 disables the limit for a concrete model
and conversation. -/
theorem set_max_tokens_normalizes_witness :
    ((some 0 : Option Nat) = none ∨ (some 0 : Option Nat) = some 0) ∧
    ((ModelInfo.new 0 "openai" "gpt-4").set_max_tokens (some 0)).max_tokens = none ∧
    ((ModelInfo.new 0 "openai" "gpt-4").set_max_tokens (some 0)).max_tokens_limit
      String.length [⟨Role.user, "hello"⟩] = .ok () := by
  refine ⟨Or.inr rfl, ?_, ?_⟩
  · exact (set_max_tokens_normalizes (ModelInfo.new 0 "openai" "gpt-4") (some 0)).1
      (Or.inr rfl)
  · exact (set_max_tokens_normalizes (ModelInfo.new 0 "openai" "gpt-4") (some 0)).2.2
      String.length [⟨Role.user, "hello"⟩] (Or.inr rfl)

/-! ## Claims about secret and proxy resolution -/

/-- C7: every required secret resolves by a three-tier fallback: the explicit
configuration value, else the environment variable named by uppercasing the
client's display name joined to the field name by an underscore, else a
failure naming the missing field. -/
theorem config_get_fallback (field_value : Option String)
    (client_name field_name : String) (env : String → Option String) :
    (∀ v, field_value = some v →
      config_get field_value client_name field_name env = .ok v) ∧
    (field_value = none →
      ∀ w, env (to_ascii_uppercase (client_name ++ "_" ++ field_name)) = some w →
        config_get field_value client_name field_name env = .ok w) ∧
    (field_value = none →
      env (to_ascii_uppercase (client_name ++ "_" ++ field_name)) = none →
        config_get field_value client_name field_name env =
          .error ("Miss " ++ field_name)) := by
  refine ⟨?_, ?_, ?_⟩
  · rintro v rfl; rfl
  · rintro rfl w hw
    simp [config_get, Option.orElse, hw]
  · rintro rfl hw
    simp [config_get, Option.orElse, hw]

/-- Witness for C7: with no configured value, the key is taken from the
`OPENAI_API_KEY` environment variable. -/
theorem config_get_fallback_witness :
    ((none : Option String) = none ∧
      (fun n => if n = "OPENAI_API_KEY" then some "sk-1" else none)
        (to_ascii_uppercase ("openai" ++ "_" ++ "api_key")) = some "sk-1") ∧
    config_get none "openai" "api_key"
      (fun n => if n = "OPENAI_API_KEY" then some "sk-1" else none) = .ok "sk-1" := by
  refine ⟨⟨rfl, by decide⟩, ?_⟩
  exact (config_get_fallback none "openai" "api_key"
      (fun n => if n = "OPENAI_API_KEY" then some "sk-1" else none)).2.1
    rfl "sk-1" (by decide)

/-- C8: proxy resolution: an explicit value of `""`, `"false"` or `"-"`
means no proxy; another explicit value is used, failing with a message
naming the invalid proxy when malformed; with no explicit value,
`HTTPS_PROXY` is consulted first, then `ALL_PROXY`, and with neither set no
proxy is applied. -/
theorem set_proxy_resolution (explicit : Option String)
    (env : String → Option String) (valid : String → Bool) :
    (∀ p, explicit = some p → (p = "" ∨ p = "false" ∨ p = "-") →
      set_proxy explicit env valid = .ok none) ∧
    (∀ p, explicit = some p → ¬(p = "" ∨ p = "false" ∨ p = "-") →
      (valid p = true → set_proxy explicit env valid = .ok (some p)) ∧
      (valid p = false →
        set_proxy explicit env valid = .error ("Invalid proxy `" ++ p ++ "`"))) ∧
    (explicit = none → ∀ p, env "HTTPS_PROXY" = some p → valid p = true →
      set_proxy explicit env valid = .ok (some p)) ∧
    (explicit = none → env "HTTPS_PROXY" = none →
      ∀ p, env "ALL_PROXY" = some p → valid p = true →
        set_proxy explicit env valid = .ok (some p)) ∧
    (explicit = none → env "HTTPS_PROXY" = none → env "ALL_PROXY" = none →
      set_proxy explicit env valid = .ok none) := by
  refine ⟨?_, ?_, ?_, ?_, ?_⟩
  · rintro p rfl hp
    simp [set_proxy, if_pos hp]
  · rintro p rfl hp
    constructor
    · intro hv; simp [set_proxy, if_neg hp, hv]
    · intro hv; simp [set_proxy, if_neg hp, hv]
  · rintro rfl p hp hv
    simp [set_proxy, Option.orElse, hp, hv]
  · rintro rfl h1 p hp hv
    simp [set_proxy, Option.orElse, h1, hp, hv]
  · rintro rfl h1 h2
    simp [set_proxy, Option.orElse, h1, h2]

/-- Witness for C8: an explicit value of `"-"` disables the proxy. -/
theorem set_proxy_resolution_witness :
    ((some "-" : Option String) = some "-" ∧
      ("-" = "" ∨ "-" = "false" ∨ ("-" : String) = "-")) ∧
    set_proxy (some "-") (fun _ => some "socks5://u") (fun _ => true) = .ok none := by
  refine ⟨⟨rfl, Or.inr (Or.inr rfl)⟩, ?_⟩
  exact (set_proxy_resolution (some "-") (fun _ => some "socks5://u")
      (fun _ => true)).1 "-" rfl (Or.inr (Or.inr rfl))

/-! ## Claims about the streaming session controller -/

/-- C3: exactly one race branch determines the outcome, with the
completion-hook asymmetry: the abort-watch arm (which can only win once the
signal is no longer `running`) calls the completion hook and succeeds; the
ctrl-c arm sets the signal to the user-interrupt state and succeeds without
calling the hook; the retrieval arm calls the hook and wraps any transport
error with "Failed to get answer". -/
theorem streaming_race_outcomes (signal : AbortState) (w : RaceWinner) :
    (w = .abortWatch → signal ≠ .running →
      (send_message_streaming_race signal w).done_calls = 1 ∧
      (send_message_streaming_race signal w).result = .ok ()) ∧
    (w = .ctrlC →
      (send_message_streaming_race signal w).done_calls = 0 ∧
      (send_message_streaming_race signal w).signal = .ctrlc ∧
      (send_message_streaming_race signal w).result = .ok ()) ∧
    (∀ e, w = .retrieval (.error e) →
      (send_message_streaming_race signal w).done_calls = 1 ∧
      (send_message_streaming_race signal w).result =
        .error ("Failed to get answer: " ++ e)) ∧
    (w = .retrieval (.ok ()) →
      (send_message_streaming_race signal w).done_calls = 1 ∧
      (send_message_streaming_race signal w).result = .ok ()) := by
  refine ⟨?_, ?_, ?_, ?_⟩
  · rintro rfl _
    exact ⟨rfl, rfl⟩
  · rintro rfl
    exact ⟨rfl, rfl, rfl⟩
  · rintro e rfl
    exact ⟨rfl, rfl⟩
  · rintro rfl
    exact ⟨rfl, rfl⟩

/-- Witness for C3: the abort-watch arm winning on a `ctrld` signal calls
the hook once and succeeds. -/
theorem streaming_race_outcomes_witness :
    (RaceWinner.abortWatch = RaceWinner.abortWatch ∧
      AbortState.ctrld ≠ AbortState.running) ∧
    (send_message_streaming_race .ctrld .abortWatch).done_calls = 1 ∧
    (send_message_streaming_race .ctrld .abortWatch).result = .ok () := by
  exact ⟨⟨rfl, by decide⟩,
    (streaming_race_outcomes .ctrld .abortWatch).1 rfl (by decide)⟩

/-- Auxiliary: concatenating singleton-character strings recovers the
original character list. -/
theorem concatAll_singletons (cs : List Char) :
    concatAll (cs.map (fun c => String.mk [c])) = String.mk cs := by
  induction cs with
  | nil => rfl
  | cons c cs ih =>
    simp only [List.map_cons, concatAll, ih]
    rfl

/-- Auxiliary: the text fragments of the dry-run action sequence are
exactly the tokens. -/
theorem textsOf_dry_run (ts : List String) :
    textsOf ((ts.map (fun t => [StreamAction.sleep 25, StreamAction.text t])).flatten
        ++ [StreamAction.done]) = ts := by
  induction ts with
  | nil => rfl
  | cons t ts ih =>
    simpa [textsOf] using ih

/-- Auxiliary: the dry-run action sequence holds exactly one `done`. -/
theorem doneCount_dry_run (ts : List String) :
    doneCount ((ts.map (fun t => [StreamAction.sleep 25, StreamAction.text t])).flatten
        ++ [StreamAction.done]) = 1 := by
  induction ts with
  | nil => rfl
  | cons t ts ih =>
    simpa [doneCount] using ih

/-- Auxiliary: in the dry-run action sequence every `text` is immediately
preceded by a 25ms sleep. -/
theorem sleepBeforeEachText_dry_run (ts : List String) :
    sleepBeforeEachText
      ((ts.map (fun t => [StreamAction.sleep 25, StreamAction.text t])).flatten
        ++ [StreamAction.done]) = true := by
  induction ts with
  | nil => rfl
  | cons t ts ih =>
    simpa [sleepBeforeEachText] using ih

/-- C6: dry-run streaming tokenizes the echoed input and emits one `Text`
event per token in order, each preceded by a 25ms sleep; the fragments
concatenate back to the echoed content, exactly one `Done` follows as the
last event, and the result is success. -/
theorem dry_run_streaming_events (echo : String → String) (content : String) :
    concatAll (textsOf (dry_run_streaming echo content).1) = echo content ∧
    doneCount (dry_run_streaming echo content).1 = 1 ∧
    (dry_run_streaming echo content).1.getLast? = some .done ∧
    sleepBeforeEachText (dry_run_streaming echo content).1 = true ∧
    (dry_run_streaming echo content).2 = .ok () := by
  refine ⟨?_, ?_, ?_, ?_, rfl⟩
  · simp only [dry_run_streaming]
    rw [textsOf_dry_run]
    unfold tokenize
    rw [concatAll_singletons]
    exact rfl
  · exact doneCount_dry_run (tokenize (echo content))
  · exact List.getLast?_concat _
  · exact sleepBeforeEachText_dry_run (tokenize (echo content))

/-! ## Claims about the terminal renderer -/

/-- Auxiliary: exact Nat ceiling division, `(w + c - 1) / c` as floor
division plus a remainder correction. -/
theorem add_pred_div_eq_ceil (w c : Nat) (hc : 0 < c) :
    (w + c - 1) / c = w / c + (if w % c = 0 then 0 else 1) := by
  have h1 := Nat.div_add_mod w c
  have h3 := Nat.mod_lt w hc
  by_cases h : w % c = 0
  · have h2 : w + c - 1 = c * (w / c) + (c - 1) := by omega
    rw [if_pos h, h2, Nat.mul_add_div hc]
    have h5 : (c - 1) / c = 0 := Nat.div_eq_of_lt (by omega)
    omega
  · have h4 : c * (w / c + 1) = c * (w / c) + c := by ring
    have h2 : w + c - 1 = c * (w / c + 1) + (w % c - 1) := by omega
    rw [if_neg h, h2, Nat.mul_add_div hc]
    have h5 : (w % c - 1) / c = 0 := Nat.div_eq_of_lt (by omega)
    omega

/-- C4 counterexample: a text of display width 0 occupies 0 rows under
`need_rows`, not at least 1 (the claim asserts a minimum of 1 row). -/
theorem need_rows_zero_width_counterexample :
    need_rows String.length "" 4 = 0 ∧ ¬(1 ≤ need_rows String.length "" 4) := by
  constructor
  · rfl
  · intro h
    exact absurd h (by decide)

/-- C4 (amended): for a positive column count (and widths within the `u16`
range), `need_rows` equals the exact ceiling of the display width divided by
the column count, with no 1-row minimum: width 10 with 4 columns yields 3,
width 8 with 4 columns yields 2, and width 0 yields 0 rows. -/
theorem need_rows_ceiling (display_width : String → Nat) (text : String)
    (columns : Nat) (hc : 0 < columns)
    (hw : display_width text + columns ≤ 65536) :
    need_rows display_width text columns =
      display_width text / columns +
        (if display_width text % columns = 0 then 0 else 1) ∧
    (display_width text = 10 → columns = 4 →
      need_rows display_width text columns = 3) ∧
    (display_width text = 8 → columns = 4 →
      need_rows display_width text columns = 2) ∧
    (display_width text = 0 → need_rows display_width text columns = 0) := by
  have hmod : display_width text % 65536 = display_width text :=
    Nat.mod_eq_of_lt (by omega)
  have key : need_rows display_width text columns =
      (display_width text + columns - 1) / columns := by
    simp only [need_rows, hmod]
    rw [Nat.mod_eq_of_lt (by omega)]
  have hceil := add_pred_div_eq_ceil (display_width text) columns hc
  refine ⟨key.trans hceil, ?_, ?_, ?_⟩
  · intro h10 h4
    rw [key, h10, h4]
  · intro h8 h4
    rw [key, h8, h4]
  · intro h0
    rw [key, h0, Nat.div_eq_of_lt (by omega)]

/-- Witness for C4 (amended): display width 10 at 4 columns yields 3 rows. -/
theorem need_rows_ceiling_witness :
    (0 < 4 ∧ String.length "0123456789" + 4 ≤ 65536) ∧
    need_rows String.length "0123456789" 4 = 3 := by
  refine ⟨⟨by decide, by decide⟩, ?_⟩
  exact (need_rows_ceiling String.length "0123456789" 4 (by decide)
      (by decide)).2.1 (by decide) rfl

/-- Auxiliary: splitting a reversed character list at the first newline
either returns the whole list (no newline anywhere) or decomposes it around
that newline, the kept part being newline-free. -/
theorem split_at_nl_rev_spec (rcs : List Char) :
    ((split_at_nl_rev rcs).2 = none →
        (split_at_nl_rev rcs).1 = rcs ∧ '\n' ∉ (split_at_nl_rev rcs).1) ∧
    (∀ before, (split_at_nl_rev rcs).2 = some before →
        rcs = (split_at_nl_rev rcs).1 ++ '\n' :: before ∧
          '\n' ∉ (split_at_nl_rev rcs).1) := by
  induction rcs with
  | nil => exact ⟨fun _ => ⟨rfl, List.not_mem_nil _⟩, fun b h => Option.noConfusion h⟩
  | cons c rest ih =>
    by_cases hc : c = '\n'
    · subst hc
      have hs : split_at_nl_rev ('\n' :: rest) = ([], some rest) := by
        simp [split_at_nl_rev]
      constructor
      · intro h; rw [hs] at h; exact Option.noConfusion h
      · intro b hb
        rw [hs] at hb
        obtain rfl : rest = b := Option.some.inj hb
        rw [hs]
        exact ⟨rfl, List.not_mem_nil _⟩
    · constructor
      · intro h
        simp only [split_at_nl_rev, if_neg hc] at h ⊢
        obtain ⟨h1, h2⟩ := ih.1 h
        constructor
        · rw [h1]
        · intro hmem
          rcases List.mem_cons.mp hmem with he | hm
          · exact hc he.symm
          · exact h2 hm
      · intro b hb
        simp only [split_at_nl_rev, if_neg hc] at hb ⊢
        obtain ⟨h1, h2⟩ := ih.2 b hb
        constructor
        · rw [List.cons_append, ← h1]
        · intro hmem
          rcases List.mem_cons.mp hmem with he | hm
          · exact hc he.symm
          · exact h2 hm

/-- Auxiliary: on text that holds a newline, `split_line_tail` returns a
head and tail whose rejoining around one newline is the original text, the
tail being newline-free (the partial last line). -/
theorem split_line_tail_spec (s : String) (h : s.toList.contains '\n' = true) :
    (split_line_tail s).1 ++ "\n" ++ (split_line_tail s).2 = s ∧
    (split_line_tail s).2.toList.contains '\n' = false := by
  have hmem : '\n' ∈ s.toList.reverse := by
    rw [List.mem_reverse]
    simpa [List.contains, List.elem_eq_mem] using h
  rcases hsplit : (split_at_nl_rev s.toList.reverse).2 with _ | before
  · obtain ⟨h1, h2⟩ := (split_at_nl_rev_spec s.toList.reverse).1 hsplit
    rw [h1] at h2
    exact absurd hmem h2
  · obtain ⟨h1, h2⟩ := (split_at_nl_rev_spec s.toList.reverse).2 before hsplit
    obtain ⟨tl, htl⟩ : ∃ tl, (split_at_nl_rev s.toList.reverse).1 = tl := ⟨_, rfl⟩
    rw [htl] at h1 h2
    have he : split_at_nl_rev s.toList.reverse = (tl, some before) := by
      rw [← htl, ← hsplit]
    have hlist : s.toList = before.reverse ++ '\n' :: tl.reverse := by
      have h3 := congrArg List.reverse h1
      simpa [List.reverse_append] using h3
    constructor
    · simp only [split_line_tail, he]
      apply String.ext
      show (String.mk before.reverse ++ "\n" ++ String.mk tl.reverse).data = s.data
      rw [String.data_append, String.data_append]
      show before.reverse ++ ['\n'] ++ tl.reverse = s.data
      rw [List.append_assoc]
      exact hlist.symm
    · simp only [split_line_tail, he]
      show (tl.reverse).contains '\n' = false
      simp only [List.contains, List.elem_eq_mem, List.mem_reverse]
      simpa using h2

/-- Auxiliary: `List.contains` agrees with membership, `true` case. -/
theorem contains_eq_true_iff (l : List Char) (c : Char) :
    l.contains c = true ↔ c ∈ l := by
  simp [List.contains, List.elem_eq_mem]

/-- Auxiliary: `List.contains` agrees with membership, `false` case. -/
theorem contains_eq_false_iff (l : List Char) (c : Char) :
    l.contains c = false ↔ c ∉ l := by
  simp [List.contains, List.elem_eq_mem]

/-- C5: on a `Text` fragment holding a newline, the pending buffer and the
fragment concatenate and split at the last newline: the head of complete
lines is rendered as a finished markdown block, and the new pending buffer
is exactly the newline-free tail. On a fragment without a newline the
pending buffer keeps the whole appended text, and when the markdown
line-render itself introduces a newline the render output is printed via
its own head/tail split instead. -/
theorem handle_text_buffer_split (render render_line : String → String)
    (display_width : String → Nat) (columns col row : Nat)
    (st : RenderState) (text : String) :
    (text.toList.contains '\n' = true →
      (handle_text render render_line display_width columns col row st text).1.buffer
          = (split_line_tail (st.buffer ++ text)).2 ∧
      (split_line_tail (st.buffer ++ text)).1 ++ "\n" ++
          (handle_text render render_line display_width columns col row st text).1.buffer
        = st.buffer ++ text ∧
      ((handle_text render render_line display_width columns col row st
          text).1.buffer.toList.contains '\n') = false ∧
      (handle_text render render_line display_width columns col row st text).2 =
        reposition_actions (correct_row display_width columns col row st.buffer)
            st.buffer_rows
          ++ (print_block (render (split_line_tail (st.buffer ++ text)).1) columns).1
          ++ [.print (split_line_tail (st.buffer ++ text)).2]) ∧
    (text.toList.contains '\n' = false →
      (handle_text render render_line display_width columns col row st text).1.buffer
        = st.buffer ++ text) ∧
    (text.toList.contains '\n' = false →
      (render_line (st.buffer ++ text)).toList.contains '\n' = true →
      (split_line_tail (render_line (st.buffer ++ text))).1 ++ "\n" ++
          (split_line_tail (render_line (st.buffer ++ text))).2
        = render_line (st.buffer ++ text) ∧
      ((split_line_tail (render_line (st.buffer ++ text))).2.toList.contains '\n')
        = false ∧
      (handle_text render render_line display_width columns col row st text).2 =
        reposition_actions (correct_row display_width columns col row st.buffer)
            st.buffer_rows
          ++ (print_block (split_line_tail (render_line (st.buffer ++ text))).1
              columns).1
          ++ [.print (split_line_tail (render_line (st.buffer ++ text))).2]) := by
  refine ⟨?_, ?_, ?_⟩
  · intro hn
    have hn' : '\n' ∈ text.data := (contains_eq_true_iff _ _).mp hn
    have hcat : (st.buffer ++ text).toList.contains '\n' = true := by
      rw [contains_eq_true_iff]
      show '\n' ∈ (st.buffer ++ text).data
      rw [String.data_append, List.mem_append]
      exact Or.inr hn'
    obtain ⟨hrec, hnc⟩ := split_line_tail_spec (st.buffer ++ text) hcat
    have hb : (handle_text render render_line display_width columns col row st
        text).1.buffer = (split_line_tail (st.buffer ++ text)).2 := by
      simp [handle_text, hn']
    refine ⟨hb, ?_, ?_, ?_⟩
    · rw [hb]; exact hrec
    · rw [hb]; exact hnc
    · simp [handle_text, hn']
  · intro hn
    have hn' : '\n' ∉ text.data := (contains_eq_false_iff _ _).mp hn
    by_cases ho : '\n' ∈ (render_line (st.buffer ++ text)).data
    · simp [handle_text, hn', ho]
    · simp [handle_text, hn', ho]
  · intro hn ho
    have hn' : '\n' ∉ text.data := (contains_eq_false_iff _ _).mp hn
    have ho' : '\n' ∈ (render_line (st.buffer ++ text)).data :=
      (contains_eq_true_iff _ _).mp ho
    obtain ⟨hrec, hnc⟩ := split_line_tail_spec _ ho
    exact ⟨hrec, hnc, by simp [handle_text, hn', ho']⟩

/-- Witness for C5: the fragment `"lo\nWor"` arriving on pending buffer
`"Hel"` completes the line `"Hello"` and leaves `"Wor"` pending. -/
theorem handle_text_buffer_split_witness :
    ("lo\nWor".toList.contains '\n' = true) ∧
    (handle_text id id String.length 80 0 0 ⟨"Hel", 1⟩ "lo\nWor").1.buffer = "Wor" ∧
    (split_line_tail ("Hel" ++ "lo\nWor")).1 = "Hello" := by
  refine ⟨by decide, ?_, by decide⟩
  have h := ((handle_text_buffer_split id id String.length 80 0 0 ⟨"Hel", 1⟩
      "lo\nWor").1 (by decide)).1
  rw [h]
  decide

/-- C9: on every `Text` fragment the renderer first applies the
terminal-emulator correction (column 0, row > 0, buffer width equal to the
column width: tracked row decremented by one), then repositions: when the
first pending-buffer row is within the drawn region the cursor moves to
column 0 of `row + 1 - buffer_rows`, otherwise the viewport scrolls up by
`buffer_rows - row - 1` and the cursor moves to the origin, clearing to end
of line either way; these writes precede all others. -/
theorem handle_text_reposition (render render_line : String → String)
    (display_width : String → Nat) (columns col row : Nat)
    (st : RenderState) (text : String) :
    (col = 0 → 0 < row → display_width st.buffer = columns →
      correct_row display_width columns col row st.buffer = row - 1) ∧
    (¬(col = 0 ∧ 0 < row ∧ display_width st.buffer = columns) →
      correct_row display_width columns col row st.buffer = row) ∧
    (∀ r, r + 1 < 65536 → st.buffer_rows ≤ r + 1 →
      reposition_actions r st.buffer_rows =
        [WriteAction.moveTo 0 (r + 1 - st.buffer_rows),
          WriteAction.clearUntilNewline]) ∧
    (∀ r, r + 1 < 65536 → r + 1 < st.buffer_rows →
      reposition_actions r st.buffer_rows =
        [WriteAction.scrollUp (st.buffer_rows - (r + 1)), WriteAction.moveTo 0 0,
          WriteAction.clearUntilNewline]) ∧
    (∃ rest,
      (handle_text render render_line display_width columns col row st text).2 =
        reposition_actions (correct_row display_width columns col row st.buffer)
            st.buffer_rows ++ rest) := by
  refine ⟨?_, ?_, ?_, ?_, ?_⟩
  · intro h1 h2 h3
    simp only [correct_row]
    rw [if_pos ⟨h1, h2, h3⟩]
  · intro h
    simp only [correct_row]
    rw [if_neg h]
  · intro r h1 h2
    simp only [reposition_actions]
    rw [Nat.mod_eq_of_lt h1, if_pos h2]
  · intro r h1 h2
    simp only [reposition_actions]
    rw [Nat.mod_eq_of_lt h1, if_neg (by omega)]
  · by_cases hn : '\n' ∈ text.data
    · refine ⟨(print_block (render (split_line_tail (st.buffer ++ text)).1)
          columns).1 ++ [.print (split_line_tail (st.buffer ++ text)).2], ?_⟩
      simp [handle_text, hn, List.append_assoc]
    · by_cases ho : '\n' ∈ (render_line (st.buffer ++ text)).data
      · refine ⟨(print_block (split_line_tail (render_line (st.buffer ++ text))).1
            columns).1
            ++ [.print (split_line_tail (render_line (st.buffer ++ text))).2], ?_⟩
        simp [handle_text, hn, ho, List.append_assoc]
      · refine ⟨[.print (render_line (st.buffer ++ text))], ?_⟩
        simp [handle_text, hn, ho]

/-- Witness for C9: at reported column 0, row 3, with a pending buffer
exactly filling the 4-column width, the tracked row drops to 2 and the
cursor moves straight to row 2, column 0. -/
theorem handle_text_reposition_witness :
    ((0 : Nat) = 0 ∧ 0 < 3 ∧ String.length "abcd" = 4 ∧
      (1 : Nat) ≤ 2 + 1 ∧ (2 : Nat) + 1 < 65536) ∧
    correct_row String.length 4 0 3 "abcd" = 2 ∧
    reposition_actions 2 1 =
      [WriteAction.moveTo 0 2, WriteAction.clearUntilNewline] := by
  refine ⟨⟨rfl, by decide, by decide, by decide, by decide⟩, ?_, ?_⟩
  · exact (handle_text_reposition id id String.length 4 0 3 ⟨"abcd", 1⟩ "x").1
      rfl (by decide) (by decide)
  · exact (handle_text_reposition id id String.length 4 0 3 ⟨"abcd", 1⟩ "x").2.2.1
      2 (by decide) (by decide)

end Aichat
